import Mathlib

/-!
Verification development for the job-lifecycle coordinator of the
eco-metallurgist browser extension (`service_worker.js`).

The service worker owns job state transitions, retry/backoff polling against
a remote HTTP API, and persistence of job records in a single storage slot.
We embed the storage slot as a `List Job` (the `jobs` array held under the
`jobs` key of `chrome.storage.local`), and each coordinator operation as a
pure function from the current store and the outcomes of its network calls
to the new store plus its observable effects.
-/

namespace LcaServiceWorker

/-- Configuration constant `CONFIG.POLL_INTERVAL_MS` from `service_worker.js`. -/
def POLL_INTERVAL_MS : ℚ := 2000

/-- Configuration constant `CONFIG.POLL_MAX_ATTEMPTS` from `service_worker.js`. -/
def POLL_MAX_ATTEMPTS : Nat := 60

/-- Configuration constant `CONFIG.BACKOFF_MULTIPLIER` (1.5) from `service_worker.js`. -/
def BACKOFF_MULTIPLIER : ℚ := 1.5

/-- A persisted job record, as built by `submitJob` and mutated by the poll
loop and `cancelJob`.  Timestamps are abstracted to natural numbers (the code
stores ISO strings from an increasing clock); the analysis result body is
opaque (the code stores parsed JSON). -/
structure Job where
  id : String
  backendJobId : Option String := none
  url : Option String := none
  payload : String := ""
  status : String
  progress : Option Nat := none
  result : Option String := none
  error : Option String := none
  createdAt : Nat := 0
  updatedAt : Nat := 0
  retries : Nat := 0
  deriving Repr, DecidableEq

/-- JavaScript string-or fallback `a || b`: the fallback is taken when the
left side is absent (`undefined`) or the empty string (both falsy). -/
def jsOr (a : Option String) (b : String) : String :=
  match a with
  | none => b
  | some s => if s = "" then b else s

/-- JavaScript falsiness of an optional string configuration value
(`!backendUrl` in the code): true when absent or empty. -/
def jsFalsy (a : Option String) : Bool :=
  match a with
  | none => true
  | some s => s = ""

/-- Storage helper `getJobById`: `jobs.find(j => j.id === jobId)`. -/
def getJobById (jobs : List Job) (jobId : String) : Option Job :=
  jobs.find? (fun j => j.id == jobId)

/-- Storage helper `saveJob`: `jobs.push(job)` followed by writing the array
back. -/
def saveJob (jobs : List Job) (job : Job) : List Job :=
  jobs ++ [job]

/-- Storage helper `updateJob`: `jobs.findIndex(j => j.id === updatedJob.id)`;
when found the element at that index is replaced and the array written back,
otherwise nothing is written. -/
def updateJob (jobs : List Job) (updatedJob : Job) : List Job :=
  match jobs.findIdx? (fun j => j.id == updatedJob.id) with
  | some i => jobs.set i updatedJob
  | none => jobs

/-- The Store operation `upsert` of the specification, as realised by the
coordinator: a record with a fresh id is written through `saveJob` (append)
and a record whose id already exists is written through `updateJob`
(overwrite in place). -/
def upsert (jobs : List Job) (r : Job) : List Job :=
  if (getJobById jobs r.id).isSome then updateJob jobs r else saveJob jobs r

/-- Body of a `GET /lca/status/{id}` response, as read by the poll loop. -/
structure StatusData where
  status : String
  progress : Option Nat := none
  error : Option String := none
  deriving Repr, DecidableEq

/-- Outcome of the status fetch inside `pollJobStatus`: either a parsed body,
or a failure (network error, non-2xx response, or JSON parse error — each of
these throws and lands in the catch block). -/
inductive StatusFetch where
  | ok (d : StatusData)
  | fail
  deriving Repr, DecidableEq

/-- Outcome of the result fetch inside `pollJobStatus`.  A non-2xx response
does not throw (`resultResponse.ok` is merely tested), so it is distinct from
a thrown network or JSON parse error. -/
inductive ResultFetch where
  | ok (body : String)
  | httpError
  | throwErr
  deriving Repr, DecidableEq

/-- What a single `pollJobStatus` invocation schedules on exit: nothing, or a
`setTimeout` of the next attempt after the given delay in milliseconds. -/
inductive PollAction where
  | stop
  | reschedule (delay : ℚ)
  deriving Repr, DecidableEq

/-- Observable outcome of one `pollJobStatus` invocation: the store after the
invocation, what it scheduled, and whether it issued a status request to the
backend. -/
structure PollOutcome where
  jobs : List Job
  action : PollAction
  statusQueried : Bool
  deriving Repr, DecidableEq

/-- Delay computed on the successful non-terminal path of `pollJobStatus`:
`POLL_INTERVAL_MS * Math.pow(BACKOFF_MULTIPLIER, Math.min(attempt, 5))`. -/
def pollDelaySuccess (attempt : Nat) : ℚ :=
  POLL_INTERVAL_MS * BACKOFF_MULTIPLIER ^ (min attempt 5)

/-- Delay computed in the catch block of `pollJobStatus`:
`POLL_INTERVAL_MS * Math.pow(BACKOFF_MULTIPLIER, attempt)` — no cap. -/
def pollDelayCatch (attempt : Nat) : ℚ :=
  POLL_INTERVAL_MS * BACKOFF_MULTIPLIER ^ attempt

/-- The read `pollJobStatus` performs before suspending on the network: the
job looked up by id, or nothing when it is missing or already terminal (in
which case the invocation returns without fetching). -/
def pollSnapshot (jobs : List Job) (jobId : String) : Option Job :=
  match getJobById jobs jobId with
  | none => none
  | some job =>
    if job.status = "done" ∨ job.status = "error" then none else some job

/-- The remainder of a `pollJobStatus` invocation after its status fetch
resolves, applied to the store current at that moment and to the job object
`snap` that was read before the fetch (the code never re-reads the store
after the fetch).  Mirrors lines 156–213 of `service_worker.js`. -/
def pollResume (jobs : List Job) (snap : Job) (attempt : Nat) (now : Nat)
    (sf : StatusFetch) (rf : ResultFetch) : PollOutcome :=
  match sf with
  | .fail => ⟨jobs, .reschedule (pollDelayCatch attempt), true⟩
  | .ok d =>
    let job1 : Job :=
      { snap with status := d.status, progress := d.progress, updatedAt := now }
    if d.status = "done" then
      match rf with
      | .throwErr => ⟨jobs, .reschedule (pollDelayCatch attempt), true⟩
      | .httpError => ⟨updateJob jobs job1, .stop, true⟩
      | .ok body => ⟨updateJob jobs { job1 with result := some body }, .stop, true⟩
    else if d.status = "error" then
      ⟨updateJob jobs { job1 with error := some (jsOr d.error "Unknown error") }, .stop, true⟩
    else
      ⟨updateJob jobs job1,
        if d.status = "running" ∨ d.status = "pending" then
          .reschedule (pollDelaySuccess attempt)
        else .stop,
        true⟩

/-- One invocation of `pollJobStatus(jobId, backendUrl, apiKey, attempt)` run
to completion with no interleaving: the attempt ceiling is checked first, then
the job is read, terminal jobs are skipped, and otherwise the status fetch and
its continuation run against the same store. -/
def pollJobStatus (jobs : List Job) (jobId : String) (attempt : Nat)
    (now : Nat) (sf : StatusFetch) (rf : ResultFetch) : PollOutcome :=
  if POLL_MAX_ATTEMPTS ≤ attempt then
    match getJobById jobs jobId with
    | some job =>
      if job.status = "pending" ∨ job.status = "running" then
        ⟨updateJob jobs
          { job with status := "error",
                     error := some "Timeout: Job did not complete in time",
                     updatedAt := now }, .stop, false⟩
      else ⟨jobs, .stop, false⟩
    | none => ⟨jobs, .stop, false⟩
  else
    match pollSnapshot jobs jobId with
    | none => ⟨jobs, .stop, false⟩
    | some snap => pollResume jobs snap attempt now sf rf

/-- The poll loop: `pollJobStatus` reschedules itself through `setTimeout`
with `attempt + 1`; we drive it with explicit fuel and an environment giving,
per attempt index, the clock value and the two fetch outcomes.  Returns the
final store and the number of status requests issued to the backend. -/
def pollLoop (fuel : Nat) (jobs : List Job) (jobId : String) (attempt : Nat)
    (env : Nat → Nat × StatusFetch × ResultFetch) : List Job × Nat :=
  match fuel with
  | 0 => (jobs, 0)
  | f + 1 =>
    let e := env attempt
    let out := pollJobStatus jobs jobId attempt e.1 e.2.1 e.2.2
    match out.action with
    | .stop => (out.jobs, if out.statusQueried then 1 else 0)
    | .reschedule _ =>
      let rest := pollLoop f out.jobs jobId (attempt + 1) env
      (rest.1, (if out.statusQueried then 1 else 0) + rest.2)

/-- Result of `cancelJob`: the store after the call and the response sent to
the caller (`{success: true}` or the thrown not-found error message). -/
def cancelJob (jobs : List Job) (jobId : String) (now : Nat) :
    List Job × Except String Unit :=
  match getJobById jobs jobId with
  | none => (jobs, .error "Job not found")
  | some job =>
    (updateJob jobs
      { job with status := "error",
                 error := some "Cancelled by user",
                 updatedAt := now }, .ok ())

/-- The `material_composition` object of the hardcoded mock response. -/
structure MaterialComposition where
  primary_material : String
  alloy_type : String
  recycled_content : Nat
  virgin_content : Nat
  deriving Repr, DecidableEq

/-- The `energy_analysis` object of the hardcoded mock response. -/
structure EnergyAnalysis where
  total_energy_kwh : Nat
  renewable_percentage : Nat
  grid_intensity_gco2_kwh : Nat
  deriving Repr, DecidableEq

/-- The `transport_analysis` object of the hardcoded mock response. -/
structure TransportAnalysis where
  distance_km : Nat
  mode : String
  emissions_kg : ℚ
  deriving Repr, DecidableEq

/-- The `lifecycle_phases` object of the hardcoded mock response. -/
structure LifecyclePhases where
  extraction : ℚ
  processing : ℚ
  transport : ℚ
  use_phase : ℚ
  end_of_life : ℚ
  deriving Repr, DecidableEq

/-- The `raw_json` object of the hardcoded mock response. -/
structure RawJson where
  material_composition : MaterialComposition
  energy_analysis : EnergyAnalysis
  transport_analysis : TransportAnalysis
  lifecycle_phases : LifecyclePhases
  deriving Repr, DecidableEq

/-- The `result` field of the hardcoded mock response. -/
structure MockResult where
  job_id : String
  material : String
  co2_kg : ℚ
  circularity_score : Nat
  recycled_percent : Nat
  recommendations : List String
  raw_json : RawJson
  deriving Repr, DecidableEq

/-- Coordinator operation `getMockResponse`: the hardcoded mock analysis
result.  Its `job_id` is `'mock-' + Date.now()`, so the current clock value
is a parameter; every other field is a fixed literal. -/
def getMockResponse (now : Nat) : MockResult :=
  { job_id := "mock-" ++ toString now
    material := "aluminium"
    co2_kg := 123.45
    circularity_score := 67
    recycled_percent := 30
    recommendations :=
      ["Increase recycled content to 50% to reduce CO₂ emissions by 25%",
       "Switch to renewable energy sources for production",
       "Optimize transportation routes to reduce distance by 20%",
       "Implement closed-loop recycling system"]
    raw_json :=
      { material_composition :=
          { primary_material := "aluminium", alloy_type := "6061",
            recycled_content := 30, virgin_content := 70 }
        energy_analysis :=
          { total_energy_kwh := 100, renewable_percentage := 45,
            grid_intensity_gco2_kwh := 400 }
        transport_analysis :=
          { distance_km := 50, mode := "truck", emissions_kg := 15.5 }
        lifecycle_phases :=
          { extraction := 45.2, processing := 52.8, transport := 15.5,
            use_phase := 0, end_of_life := 10.0 } } }

/-- Outcome of the `POST /lca/submit` fetch in `submitJob`: parsed body with
its optional `job_id` field, or a thrown failure (network error, non-2xx
response, or JSON parse error) with its message. -/
inductive SubmitFetch where
  | ok (job_id : Option String)
  | fail (msg : String)
  deriving Repr, DecidableEq

/-- What a `submitJob` call returns to the message router. -/
inductive SubmitOutcome where
  | mockSuccess (jobId : String) (result : MockResult)
  | success (jobId : String) (backendJobId : String)
  | failure (error : String)
  deriving Repr, DecidableEq

/-- Side effects of one `submitJob` call: the store afterwards, whether any
backend request was issued, and whether a poll loop was started. -/
structure SubmitEffects where
  jobs : List Job
  backendCalled : Bool
  pollStarted : Bool
  deriving Repr, DecidableEq

/-- Coordinator operation `submitJob(payload, mockMode)`.  The mock branch
returns a canned result under a fresh id before any configuration read,
store write, backend call, or poll.  Otherwise missing configuration fails
fast; a fresh `pending` record is saved; the submit fetch either records the
backend-assigned id and starts the poll loop, or marks the record `error`
and re-raises. -/
def submitJob (payloadUrl : Option String) (payloadBody : String)
    (mockMode : Bool) (backendUrl apiKey : Option String) (jobs : List Job)
    (freshId : String) (now : Nat) (sf : SubmitFetch) :
    SubmitOutcome × SubmitEffects :=
  if mockMode then
    (.mockSuccess freshId (getMockResponse now), ⟨jobs, false, false⟩)
  else if jsFalsy backendUrl then
    (.failure "Backend URL not configured. Please set it in Options.",
      ⟨jobs, false, false⟩)
  else if jsFalsy apiKey then
    (.failure "API Key not configured. Please set it in Options.",
      ⟨jobs, false, false⟩)
  else
    let job : Job :=
      { id := freshId, url := payloadUrl, payload := payloadBody,
        status := "pending", createdAt := now, updatedAt := now,
        retries := 0, error := none, result := none }
    let jobs1 := saveJob jobs job
    match sf with
    | .ok bid =>
      let job2 : Job :=
        { job with status := "pending", backendJobId := some (jsOr bid freshId),
                   updatedAt := now }
      (.success freshId (jsOr bid freshId), ⟨updateJob jobs1 job2, true, true⟩)
    | .fail msg =>
      let job2 : Job :=
        { job with status := "error", error := some msg, updatedAt := now }
      (.failure msg, ⟨updateJob jobs1 job2, true, false⟩)

/-! Helper lemmas about the storage operations. -/

theorem getJobById_id {jobs : List Job} {i : String} {j : Job}
    (h : getJobById jobs i = some j) : j.id = i := by
  simp only [getJobById] at h
  have hp := List.find?_some h
  simpa using hp

theorem updateJob_of_getJobById_none {jobs : List Job} {r : Job}
    (h : getJobById jobs r.id = none) : updateJob jobs r = jobs := by
  simp only [getJobById, List.find?_eq_none] at h
  have hidx : jobs.findIdx? (fun j => j.id == r.id) = none := by
    rw [List.findIdx?_eq_none_iff]
    intro x hx
    have := h x hx
    simpa using this
  simp only [updateJob, hidx]

theorem findIdx?_isSome_of_find?_some {α : Type} {l : List α} {p : α → Bool}
    {a : α} (h : l.find? p = some a) : ∃ i, l.findIdx? p = some i := by
  cases hfi : l.findIdx? p with
  | none =>
    rw [List.findIdx?_eq_none_iff] at hfi
    have hm := List.mem_of_find?_eq_some h
    have hp := List.find?_some h
    have := hfi _ hm
    simp [this] at hp
  | some i => exact ⟨i, rfl⟩

theorem getJobById_updateJob_self :
    ∀ {jobs : List Job} {i : String} {j r : Job},
      getJobById jobs i = some j → r.id = i →
      getJobById (updateJob jobs r) i = some r := by
  intro jobs
  induction jobs with
  | nil => intro i j r h _; simp [getJobById] at h
  | cons hd tl ih =>
    intro i j r h hr
    subst hr
    by_cases hpd : hd.id = r.id
    · have hb : (hd.id == r.id) = true := by simpa using hpd
      simp only [updateJob, List.findIdx?_cons, hb, if_true]
      simp [getJobById, List.set]
    · have hb : (hd.id == r.id) = false := by simpa using hpd
      simp only [getJobById, List.find?_cons_of_neg, hb, Bool.false_eq_true,
        not_false_iff] at h
      have h' : getJobById tl r.id = some j := by
        simpa [getJobById, hb] using h
      obtain ⟨k, hk⟩ := findIdx?_isSome_of_find?_some h'
      have hrec := ih h' rfl
      simp only [updateJob, hk] at hrec
      simp only [updateJob, List.findIdx?_cons, hb, if_false,
        List.findIdx?_succ, hk, Option.map_some]
      simpa [getJobById, hb] using hrec

theorem getJobById_saveJob_self :
    ∀ {jobs : List Job} {r : Job}, getJobById jobs r.id = none →
      getJobById (saveJob jobs r) r.id = some r := by
  intro jobs
  induction jobs with
  | nil => intro r _; simp [getJobById, saveJob]
  | cons hd tl ih =>
    intro r h
    by_cases hpd : hd.id = r.id
    · exfalso
      have hb : (hd.id == r.id) = true := by simpa using hpd
      simp [getJobById, hb] at h
    · have hb : (hd.id == r.id) = false := by simpa using hpd
      have h' : getJobById tl r.id = none := by
        simpa [getJobById, hb] using h
      have := ih h'
      simpa [getJobById, saveJob, hb] using this

/-! Claim theorems. -/

/-- Claim C8: for every payload and environment, `submitJob` in mock mode
leaves the store untouched, issues no backend request, starts no poll loop,
and returns the fixed mock payload with circularity score 67, CO₂ 123.45 kg
and recycled share 30 percent. -/
theorem submitJob_mockMode_bypasses_backend (payloadUrl : Option String)
    (payloadBody : String) (backendUrl apiKey : Option String)
    (jobs : List Job) (freshId : String) (now : Nat) (sf : SubmitFetch) :
    (submitJob payloadUrl payloadBody true backendUrl apiKey jobs freshId now
        sf).2.backendCalled = false
    ∧ (submitJob payloadUrl payloadBody true backendUrl apiKey jobs freshId now
        sf).2.pollStarted = false
    ∧ (submitJob payloadUrl payloadBody true backendUrl apiKey jobs freshId now
        sf).2.jobs = jobs
    ∧ (submitJob payloadUrl payloadBody true backendUrl apiKey jobs freshId now
        sf).1 = .mockSuccess freshId (getMockResponse now)
    ∧ (getMockResponse now).circularity_score = 67
    ∧ (getMockResponse now).co2_kg = 123.45
    ∧ (getMockResponse now).recycled_percent = 30 :=
  ⟨rfl, rfl, rfl, rfl, rfl, rfl, rfl⟩

/-- Claim C10: the record-update operation `updateJob`, used by polling and
cancellation, never inserts: on an id absent from the stored collection it
leaves the store entirely unchanged. -/
theorem updateJob_never_inserts (jobs : List Job) (r : Job)
    (h : getJobById jobs r.id = none) : updateJob jobs r = jobs :=
  updateJob_of_getJobById_none h

/-- Witness for `updateJob_never_inserts`: a store holding one record keeps
exactly that record when `updateJob` is called with a different id. -/
theorem updateJob_never_inserts_witness :
    getJobById [{ id := "job-b", status := "done" : Job }]
        (Job.id { id := "job-a", status := "pending" }) = none
    ∧ updateJob [{ id := "job-b", status := "done" : Job }]
        { id := "job-a", status := "pending" }
      = [{ id := "job-b", status := "done" : Job }] :=
  ⟨rfl, updateJob_never_inserts _ _ rfl⟩

theorem pollJobStatus_terminal {jobs : List Job} {jobId : String} {j : Job}
    (h : getJobById jobs jobId = some j)
    (hterm : j.status = "done" ∨ j.status = "error") :
    ∀ (attempt now : Nat) (sf : StatusFetch) (rf : ResultFetch),
      pollJobStatus jobs jobId attempt now sf rf = ⟨jobs, .stop, false⟩ := by
  intro attempt now sf rf
  have hcond : ¬ (j.status = "pending" ∨ j.status = "running") := by
    rcases hterm with hs | hs <;> rw [hs] <;> simp
  have hsnap : pollSnapshot jobs jobId = none := by
    simp only [pollSnapshot, h]
    rw [if_pos hterm]
  by_cases hge : POLL_MAX_ATTEMPTS ≤ attempt
  · simp only [pollJobStatus, if_pos hge, h]
    rw [if_neg hcond]
  · simp only [pollJobStatus, if_neg hge, hsnap]

/-- Sample records used to instantiate the theorems on concrete stores. -/
def sampleRunning : Job :=
  { id := "job-1", status := "running", url := some "https://example.com",
    createdAt := 3, updatedAt := 4 }

def sampleDone : Job :=
  { id := "job-2", status := "done", result := some "resultBody",
    createdAt := 1, updatedAt := 2 }

def samplePending : Job :=
  { id := "job-3", status := "pending", createdAt := 0, updatedAt := 0 }

/-- Claim C7: `upsert` with a fresh id appends the record (exactly `saveJob`),
with an existing id it overwrites in place at the record's existing position
(exactly `updateJob`, a `set` at the found index, preserving length), and in
both cases re-reading the written id returns the record just written,
field for field. -/
theorem upsert_insert_overwrite_roundtrip (jobs : List Job) (r : Job) :
    (getJobById jobs r.id = none →
      upsert jobs r = saveJob jobs r ∧ upsert jobs r = jobs ++ [r])
    ∧ (∀ j, getJobById jobs r.id = some j →
      upsert jobs r = updateJob jobs r
      ∧ ∃ i, jobs.findIdx? (fun x => x.id == r.id) = some i
          ∧ upsert jobs r = jobs.set i r
          ∧ (upsert jobs r).length = jobs.length)
    ∧ getJobById (upsert jobs r) r.id = some r := by
  cases hfind : getJobById jobs r.id with
  | none =>
    have hup : upsert jobs r = saveJob jobs r := by
      simp only [upsert, hfind, Option.isSome_none, Bool.false_eq_true,
        if_false]
    refine ⟨fun _ => ⟨hup, hup⟩, fun j hj => Option.noConfusion hj, ?_⟩
    rw [hup]
    exact getJobById_saveJob_self hfind
  | some j =>
    have hup : upsert jobs r = updateJob jobs r := by
      simp only [upsert, hfind, Option.isSome_some, if_true]
    have hfind' : (jobs.find? fun x => x.id == r.id) = some j := by
      simpa [getJobById] using hfind
    obtain ⟨i, hi⟩ := findIdx?_isSome_of_find?_some hfind'
    have hset : updateJob jobs r = jobs.set i r := by
      simp only [updateJob, hi]
    refine ⟨fun hnone => Option.noConfusion hnone, fun j' _ => ?_, ?_⟩
    · exact ⟨hup, i, hi, hup.trans hset, by rw [hup, hset, List.length_set]⟩
    · rw [hup]
      exact getJobById_updateJob_self hfind rfl

/-- Witness for `upsert_insert_overwrite_roundtrip`: inserting a fresh id into
a one-record store appends, and overwriting the existing id is read back
unchanged. -/
theorem upsert_insert_overwrite_roundtrip_witness :
    upsert [sampleDone] samplePending = [sampleDone, samplePending]
    ∧ upsert [sampleDone] { sampleDone with status := "error" }
        = updateJob [sampleDone] { sampleDone with status := "error" }
    ∧ getJobById (upsert [sampleDone] { sampleDone with status := "error" })
        (Job.id { sampleDone with status := "error" })
        = some { sampleDone with status := "error" } := by
  refine ⟨((upsert_insert_overwrite_roundtrip [sampleDone] samplePending).1
      rfl).2, ?_, ?_⟩
  · exact (((upsert_insert_overwrite_roundtrip [sampleDone]
      { sampleDone with status := "error" }).2.1) sampleDone rfl).1
  · exact (upsert_insert_overwrite_roundtrip [sampleDone]
      { sampleDone with status := "error" }).2.2

/-- Claim C4: cancelling a `pending` or `running` job answers success, stores
the exact status `error` with error string `Cancelled by user`, and every
subsequent poll invocation leaves the store unchanged and schedules nothing;
cancelling an id absent from the store answers the not-found error and leaves
the store unchanged. -/
theorem cancelJob_pending_running_spec (jobs : List Job) (jobId : String)
    (now : Nat) :
    (∀ j, getJobById jobs jobId = some j →
      j.status = "pending" ∨ j.status = "running" →
      (cancelJob jobs jobId now).2 = Except.ok ()
      ∧ getJobById (cancelJob jobs jobId now).1 jobId
          = some { j with status := "error",
                          error := some "Cancelled by user",
                          updatedAt := now }
      ∧ ∀ (attempt now' : Nat) (sf : StatusFetch) (rf : ResultFetch),
          pollJobStatus (cancelJob jobs jobId now).1 jobId attempt now' sf rf
            = ⟨(cancelJob jobs jobId now).1, .stop, false⟩)
    ∧ (getJobById jobs jobId = none →
        cancelJob jobs jobId now = (jobs, Except.error "Job not found")) := by
  constructor
  · intro j hj _
    have hid : j.id = jobId := getJobById_id hj
    have hstore : (cancelJob jobs jobId now).1
        = updateJob jobs
            { j with status := "error", error := some "Cancelled by user",
                     updatedAt := now } := by
      simp only [cancelJob, hj]
    have hresp : (cancelJob jobs jobId now).2 = Except.ok () := by
      simp only [cancelJob, hj]
    have hread : getJobById (cancelJob jobs jobId now).1 jobId
        = some { j with status := "error", error := some "Cancelled by user",
                        updatedAt := now } := by
      rw [hstore]
      exact getJobById_updateJob_self hj hid
    refine ⟨hresp, hread, fun attempt now' sf rf => ?_⟩
    exact pollJobStatus_terminal hread (Or.inr rfl) attempt now' sf rf
  · intro hnone
    simp only [cancelJob, hnone]

/-- Witness for `cancelJob_pending_running_spec`: cancelling the sample
running job stores the cancelled record and a later poll does not touch it;
cancelling an unknown id reports not-found. -/
theorem cancelJob_pending_running_spec_witness :
    (cancelJob [sampleRunning] "job-1" 5).2 = Except.ok ()
    ∧ getJobById (cancelJob [sampleRunning] "job-1" 5).1 "job-1"
        = some { sampleRunning with
            status := "error", error := some "Cancelled by user",
            updatedAt := 5 }
    ∧ pollJobStatus (cancelJob [sampleRunning] "job-1" 5).1 "job-1" 2 6
        (.ok { status := "running" }) .httpError
        = ⟨(cancelJob [sampleRunning] "job-1" 5).1, .stop, false⟩
    ∧ cancelJob [sampleRunning] "missing" 5
        = ([sampleRunning], Except.error "Job not found") := by
  have h := cancelJob_pending_running_spec [sampleRunning] "job-1" 5
  have h1 := h.1 sampleRunning rfl (Or.inr rfl)
  exact ⟨h1.1, h1.2.1, h1.2.2 2 6 (.ok { status := "running" }) .httpError,
    (cancelJob_pending_running_spec [sampleRunning] "missing" 5).2 rfl⟩

/-- Counterexample to claim C3 as stated: a record whose status is terminal
(`done`) does have its status changed by a subsequent coordinator operation —
`cancelJob` rewrites it to `error`. -/
theorem cancel_overrides_done_counterexample :
    getJobById [sampleDone] "job-2" = some sampleDone
    ∧ sampleDone.status = "done"
    ∧ ∃ j', getJobById (cancelJob [sampleDone] "job-2" 7).1 "job-2" = some j'
        ∧ j'.status = "error" ∧ j'.status ≠ "done" := by
  refine ⟨rfl, rfl,
    { sampleDone with
        status := "error", error := some "Cancelled by user",
        updatedAt := 7 }, ?_, rfl, by decide⟩
  rfl

/-- Claim C3 amended: once a record is terminal, no scheduled poll invocation
mutates the store or schedules anything — but `cancelJob`, which checks only
existence and not terminality, does still rewrite a terminal record to
status `error` with the cancellation message. -/
theorem terminal_frozen_for_polls_not_cancel (jobs : List Job)
    (jobId : String) (j : Job) (now : Nat)
    (h : getJobById jobs jobId = some j)
    (hterm : j.status = "done" ∨ j.status = "error") :
    (∀ (attempt now' : Nat) (sf : StatusFetch) (rf : ResultFetch),
      pollJobStatus jobs jobId attempt now' sf rf = ⟨jobs, .stop, false⟩)
    ∧ (cancelJob jobs jobId now).2 = Except.ok ()
    ∧ getJobById (cancelJob jobs jobId now).1 jobId
        = some { j with status := "error",
                        error := some "Cancelled by user",
                        updatedAt := now } := by
  refine ⟨fun attempt now' sf rf =>
    pollJobStatus_terminal h hterm attempt now' sf rf, ?_, ?_⟩
  · simp only [cancelJob, h]
  · have hid : j.id = jobId := getJobById_id h
    have hstore : (cancelJob jobs jobId now).1
        = updateJob jobs
            { j with status := "error", error := some "Cancelled by user",
                     updatedAt := now } := by
      simp only [cancelJob, h]
    rw [hstore]
    exact getJobById_updateJob_self h hid

/-- Witness for `terminal_frozen_for_polls_not_cancel`: on a store holding the
sample `done` record, a poll at any stage is a no-op while `cancelJob`
rewrites the record. -/
theorem terminal_frozen_for_polls_not_cancel_witness :
    pollJobStatus [sampleDone] "job-2" 3 9 (.ok { status := "running" })
        (.ok "body") = ⟨[sampleDone], .stop, false⟩
    ∧ getJobById (cancelJob [sampleDone] "job-2" 9).1 "job-2"
        = some { sampleDone with
            status := "error", error := some "Cancelled by user",
            updatedAt := 9 } := by
  have h := terminal_frozen_for_polls_not_cancel [sampleDone] "job-2"
    sampleDone 9 rfl (Or.inl rfl)
  exact ⟨h.1 3 9 (.ok { status := "running" }) (.ok "body"), h.2.2⟩

/-! Lemmas about single poll invocations and the driven loop. -/

theorem pollLoop_zero (jobs : List Job) (jobId : String) (a : Nat)
    (env : Nat → Nat × StatusFetch × ResultFetch) :
    pollLoop 0 jobs jobId a env = (jobs, 0) := rfl

theorem pollLoop_succ (f : Nat) (jobs : List Job) (jobId : String) (a : Nat)
    (env : Nat → Nat × StatusFetch × ResultFetch) :
    pollLoop (f + 1) jobs jobId a env =
      (match (pollJobStatus jobs jobId a (env a).1 (env a).2.1
          (env a).2.2).action with
       | .stop => ((pollJobStatus jobs jobId a (env a).1 (env a).2.1
            (env a).2.2).jobs,
          if (pollJobStatus jobs jobId a (env a).1 (env a).2.1
              (env a).2.2).statusQueried then 1 else 0)
       | .reschedule _ =>
         ((pollLoop f (pollJobStatus jobs jobId a (env a).1 (env a).2.1
              (env a).2.2).jobs jobId (a + 1) env).1,
          (if (pollJobStatus jobs jobId a (env a).1 (env a).2.1
              (env a).2.2).statusQueried then 1 else 0)
            + (pollLoop f (pollJobStatus jobs jobId a (env a).1 (env a).2.1
                (env a).2.2).jobs jobId (a + 1) env).2)) := rfl

theorem pollJobStatus_running_step {jobs : List Job} {jobId : String}
    {j : Job} {d : StatusData} {attempt now : Nat} {rf : ResultFetch}
    (ha : attempt < POLL_MAX_ATTEMPTS)
    (hfind : getJobById jobs jobId = some j) (hrun : j.status = "running")
    (hd : d.status = "running") :
    pollJobStatus jobs jobId attempt now (.ok d) rf =
      ⟨updateJob jobs
        { j with status := d.status, progress := d.progress,
                 updatedAt := now },
       .reschedule (pollDelaySuccess attempt), true⟩ := by
  have hnt : ¬ POLL_MAX_ATTEMPTS ≤ attempt := Nat.not_le.mpr ha
  have hsnap : pollSnapshot jobs jobId = some j := by
    simp only [pollSnapshot, hfind]
    rw [if_neg]
    rintro (hx | hx) <;> rw [hrun] at hx <;> simp at hx
  simp only [pollJobStatus, if_neg hnt, hsnap, pollResume, hd]
  simp

theorem pollJobStatus_timeout_step {jobs : List Job} {jobId : String}
    {j : Job} {attempt now : Nat} {sf : StatusFetch} {rf : ResultFetch}
    (ha : POLL_MAX_ATTEMPTS ≤ attempt)
    (hfind : getJobById jobs jobId = some j)
    (hnonterm : j.status = "pending" ∨ j.status = "running") :
    pollJobStatus jobs jobId attempt now sf rf =
      ⟨updateJob jobs
        { j with status := "error",
                 error := some "Timeout: Job did not complete in time",
                 updatedAt := now }, .stop, false⟩ := by
  simp only [pollJobStatus, if_pos ha, hfind, if_pos hnonterm]

theorem pollLoop_always_running_times_out (jobId : String)
    (env : Nat → Nat × StatusFetch × ResultFetch)
    (henv : ∀ n, ∃ d, (env n).2.1 = StatusFetch.ok d ∧ d.status = "running") :
    ∀ (k a : Nat) (jobs : List Job) (j : Job),
      a + k = POLL_MAX_ATTEMPTS →
      getJobById jobs jobId = some j → j.status = "running" →
      (∃ j', getJobById (pollLoop (k + 1) jobs jobId a env).1 jobId = some j'
          ∧ j'.status = "error"
          ∧ j'.error = some "Timeout: Job did not complete in time")
      ∧ (pollLoop (k + 1) jobs jobId a env).2 = k := by
  intro k
  induction k with
  | zero =>
    intro a jobs j ha hfind hrun
    have hge : POLL_MAX_ATTEMPTS ≤ a := by omega
    rw [pollLoop_succ, pollJobStatus_timeout_step hge hfind (Or.inr hrun)]
    have hid0 : j.id = jobId := getJobById_id hfind
    exact ⟨⟨_, getJobById_updateJob_self hfind hid0, rfl, rfl⟩, rfl⟩
  | succ k ih =>
    intro a jobs j ha hfind hrun
    obtain ⟨d, hsf, hd⟩ := henv a
    have hlt : a < POLL_MAX_ATTEMPTS := by
      have h60 : POLL_MAX_ATTEMPTS = 60 := rfl
      omega
    rw [pollLoop_succ, hsf, pollJobStatus_running_step hlt hfind hrun hd]
    have hid0 : j.id = jobId := getJobById_id hfind
    have hfind' := getJobById_updateJob_self (r := { j with
      status := d.status, progress := d.progress,
      updatedAt := (env a).1 }) hfind hid0
    have ihres := ih (a + 1)
      (updateJob jobs { j with
        status := d.status, progress := d.progress,
        updatedAt := (env a).1 })
      { j with
        status := d.status, progress := d.progress,
        updatedAt := (env a).1 }
      (by omega) hfind' (by simpa using hd)
    exact ⟨ihres.1, by simp [ihres.2, Nat.add_comm]⟩

theorem pollLoop_always_running_stays_running (jobId : String)
    (env : Nat → Nat × StatusFetch × ResultFetch)
    (henv : ∀ n, ∃ d, (env n).2.1 = StatusFetch.ok d ∧ d.status = "running") :
    ∀ (f a : Nat) (jobs : List Job) (j : Job),
      a + f ≤ POLL_MAX_ATTEMPTS →
      getJobById jobs jobId = some j → j.status = "running" →
      (∃ j', getJobById (pollLoop f jobs jobId a env).1 jobId = some j'
          ∧ j'.status = "running")
      ∧ (pollLoop f jobs jobId a env).2 = f := by
  intro f
  induction f with
  | zero =>
    intro a jobs j _ hfind hrun
    exact ⟨⟨j, hfind, hrun⟩, rfl⟩
  | succ f ih =>
    intro a jobs j ha hfind hrun
    obtain ⟨d, hsf, hd⟩ := henv a
    have hlt : a < POLL_MAX_ATTEMPTS := by
      have h60 : POLL_MAX_ATTEMPTS = 60 := rfl
      omega
    rw [pollLoop_succ, hsf, pollJobStatus_running_step hlt hfind hrun hd]
    have hid0 : j.id = jobId := getJobById_id hfind
    have hfind' := getJobById_updateJob_self (r := { j with
      status := d.status, progress := d.progress,
      updatedAt := (env a).1 }) hfind hid0
    have ihres := ih (a + 1)
      (updateJob jobs { j with
        status := d.status, progress := d.progress,
        updatedAt := (env a).1 })
      { j with
        status := d.status, progress := d.progress,
        updatedAt := (env a).1 }
      (by omega) hfind' (by simpa using hd)
    exact ⟨ihres.1, by simp [ihres.2, Nat.add_comm]⟩

/-- Claim C5: when every status poll reports `running`, the loop started at
attempt 0 reaches status `error` with the timeout message, issues exactly
`POLL_MAX_ATTEMPTS` (60) status requests, and at every truncation of at most
60 invocations the job is still `running` — never an earlier and never a
later timeout. -/
theorem pollLoop_timeout_after_exactly_max_attempts (jobs : List Job)
    (jobId : String) (j : Job)
    (env : Nat → Nat × StatusFetch × ResultFetch)
    (henv : ∀ n, ∃ d, (env n).2.1 = StatusFetch.ok d ∧ d.status = "running")
    (hfind : getJobById jobs jobId = some j) (hrun : j.status = "running") :
    (∃ j', getJobById
        (pollLoop (POLL_MAX_ATTEMPTS + 1) jobs jobId 0 env).1 jobId = some j'
      ∧ j'.status = "error"
      ∧ j'.error = some "Timeout: Job did not complete in time")
    ∧ (pollLoop (POLL_MAX_ATTEMPTS + 1) jobs jobId 0 env).2 = POLL_MAX_ATTEMPTS
    ∧ ∀ f, f ≤ POLL_MAX_ATTEMPTS →
        (∃ j', getJobById (pollLoop f jobs jobId 0 env).1 jobId = some j'
            ∧ j'.status = "running")
        ∧ (pollLoop f jobs jobId 0 env).2 = f := by
  have hA := pollLoop_always_running_times_out jobId env henv
    POLL_MAX_ATTEMPTS 0 jobs j (by omega) hfind hrun
  exact ⟨hA.1, hA.2, fun f hf =>
    pollLoop_always_running_stays_running jobId env henv f 0 jobs j
      (by omega) hfind hrun⟩

/-- An environment whose every status poll reports `running`. -/
def steadyRunningEnv : Nat → Nat × StatusFetch × ResultFetch :=
  fun n => (n, .ok { status := "running", progress := some 40 }, .throwErr)

/-- Witness for `pollLoop_timeout_after_exactly_max_attempts`: the sample
running job under an always-`running` backend is stored as a timeout error
after exactly 60 status requests, and is still `running` after 60 truncated
invocations. -/
theorem pollLoop_timeout_after_exactly_max_attempts_witness :
    (∃ j', getJobById
        (pollLoop (POLL_MAX_ATTEMPTS + 1) [sampleRunning] "job-1" 0
          steadyRunningEnv).1 "job-1" = some j'
      ∧ j'.status = "error"
      ∧ j'.error = some "Timeout: Job did not complete in time")
    ∧ (pollLoop (POLL_MAX_ATTEMPTS + 1) [sampleRunning] "job-1" 0
        steadyRunningEnv).2 = POLL_MAX_ATTEMPTS
    ∧ (∃ j', getJobById
        (pollLoop POLL_MAX_ATTEMPTS [sampleRunning] "job-1" 0
          steadyRunningEnv).1 "job-1" = some j'
      ∧ j'.status = "running") := by
  have h := pollLoop_timeout_after_exactly_max_attempts [sampleRunning]
    "job-1" sampleRunning steadyRunningEnv
    (fun n => ⟨{ status := "running", progress := some 40 }, rfl, rfl⟩)
    rfl rfl
  exact ⟨h.1, h.2.1, (h.2.2 POLL_MAX_ATTEMPTS (le_refl _)).1⟩

theorem pollJobStatus_fail_step {jobs : List Job} {jobId : String} {j : Job}
    {attempt now : Nat} {rf : ResultFetch}
    (ha : attempt < POLL_MAX_ATTEMPTS)
    (hfind : getJobById jobs jobId = some j)
    (hnonterm : ¬ (j.status = "done" ∨ j.status = "error")) :
    pollJobStatus jobs jobId attempt now .fail rf =
      ⟨jobs, .reschedule (pollDelayCatch attempt), true⟩ := by
  have hnt : ¬ POLL_MAX_ATTEMPTS ≤ attempt := Nat.not_le.mpr ha
  have hsnap : pollSnapshot jobs jobId = some j := by
    simp only [pollSnapshot, hfind]
    rw [if_neg hnonterm]
  simp only [pollJobStatus, if_neg hnt, hsnap, pollResume]

/-- Counterexample to claim C6 as stated: on the transport-failure
rescheduling path the delay for attempt 6 is the uncapped
`POLL_INTERVAL_MS * BACKOFF_MULTIPLIER ^ 6`, which differs from the claimed
`POLL_INTERVAL_MS * BACKOFF_MULTIPLIER ^ min 6 5`. -/
theorem backoff_catch_uncapped_counterexample :
    (pollJobStatus [sampleRunning] "job-1" 6 0 .fail .throwErr).action
      = .reschedule (POLL_INTERVAL_MS * BACKOFF_MULTIPLIER ^ 6)
    ∧ POLL_INTERVAL_MS * BACKOFF_MULTIPLIER ^ 6
      ≠ POLL_INTERVAL_MS * BACKOFF_MULTIPLIER ^ (min 6 5) := by
  refine ⟨rfl, ?_⟩
  simp only [POLL_INTERVAL_MS, BACKOFF_MULTIPLIER]
  norm_num

/-- Claim C6 amended: the successful non-terminal rescheduling path delays
attempt `n` by `POLL_INTERVAL_MS × BACKOFF_MULTIPLIER ^ min(n,5)` —
monotonically non-decreasing in `n` and bounded by the capped exponent —
while the transport-failure rescheduling path delays by the uncapped
`POLL_INTERVAL_MS × BACKOFF_MULTIPLIER ^ n`, monotonically non-decreasing
but unbounded. -/
theorem backoff_delay_policy (n : Nat) (jobs : List Job) (jobId : String)
    (j : Job) (d : StatusData) (now : Nat) (rf : ResultFetch)
    (hn : n < POLL_MAX_ATTEMPTS) (hfind : getJobById jobs jobId = some j)
    (hrun : j.status = "running") (hd : d.status = "running") :
    (pollJobStatus jobs jobId n now (.ok d) rf).action
      = .reschedule (POLL_INTERVAL_MS * BACKOFF_MULTIPLIER ^ (min n 5))
    ∧ (pollJobStatus jobs jobId n now .fail rf).action
      = .reschedule (POLL_INTERVAL_MS * BACKOFF_MULTIPLIER ^ n)
    ∧ pollDelaySuccess n ≤ pollDelaySuccess (n + 1)
    ∧ pollDelayCatch n ≤ pollDelayCatch (n + 1)
    ∧ pollDelaySuccess n ≤ POLL_INTERVAL_MS * BACKOFF_MULTIPLIER ^ 5 := by
  have hnonterm : ¬ (j.status = "done" ∨ j.status = "error") := by
    rintro (hx | hx) <;> rw [hrun] at hx <;> simp at hx
  refine ⟨?_, ?_, ?_, ?_, ?_⟩
  · rw [pollJobStatus_running_step hn hfind hrun hd]
    exact rfl
  · rw [pollJobStatus_fail_step hn hfind hnonterm]
    exact rfl
  · simp only [pollDelaySuccess, POLL_INTERVAL_MS, BACKOFF_MULTIPLIER]
    gcongr
    · norm_num
    · omega
  · simp only [pollDelayCatch, POLL_INTERVAL_MS, BACKOFF_MULTIPLIER]
    gcongr
    · norm_num
    · omega
  · simp only [pollDelaySuccess, POLL_INTERVAL_MS, BACKOFF_MULTIPLIER]
    gcongr
    · norm_num
    · omega

/-- Witness for `backoff_delay_policy`: at attempt 2 on the sample store the
success path reschedules after `2000 × 1.5²` ms and the failure path after
the same uncapped amount, with the monotonicity facts instantiated. -/
theorem backoff_delay_policy_witness :
    (pollJobStatus [sampleRunning] "job-1" 2 0
        (.ok { status := "running" }) .throwErr).action
      = .reschedule (POLL_INTERVAL_MS * BACKOFF_MULTIPLIER ^ (min 2 5))
    ∧ (pollJobStatus [sampleRunning] "job-1" 2 0 .fail .throwErr).action
      = .reschedule (POLL_INTERVAL_MS * BACKOFF_MULTIPLIER ^ 2)
    ∧ pollDelaySuccess 2 ≤ pollDelaySuccess 3
    ∧ pollDelaySuccess 2 ≤ POLL_INTERVAL_MS * BACKOFF_MULTIPLIER ^ 5 := by
  have h := backoff_delay_policy 2 [sampleRunning] "job-1" sampleRunning
    { status := "running" } 0 .throwErr (by decide) rfl rfl rfl
  exact ⟨h.1, h.2.1, h.2.2.1, h.2.2.2.2⟩

/-- Claim C1, evaluated at the failing input: a `running` job polled once with
the backend reporting `done` while the result fetch returns a non-2xx
response is persisted with status `done` and a null result — it does not
remain in its last polled status. -/
theorem done_committed_without_result :
    sampleRunning.status = "running" ∧ sampleRunning.result = none
    ∧ (pollJobStatus [sampleRunning] "job-1" 0 5
        (.ok { status := "done", progress := some 100 }) .httpError).jobs
      = [{ sampleRunning with
            status := "done", progress := some 100, updatedAt := 5 }]
    ∧ (∃ j', getJobById (pollJobStatus [sampleRunning] "job-1" 0 5
          (.ok { status := "done", progress := some 100 }) .httpError).jobs
          "job-1" = some j'
        ∧ j'.status = "done" ∧ j'.result = none
        ∧ j'.status ≠ sampleRunning.status) := by
  refine ⟨rfl, rfl, rfl,
    { sampleRunning with
        status := "done", progress := some 100, updatedAt := 5 },
    rfl, rfl, rfl, by decide⟩

/-- The store reached by a successful real-mode `submitJob` against a
configured backend, used to exhibit the C2 invariant violation on a store
reachable purely through coordinator operations. -/
def storeAfterSubmit : List Job :=
  (submitJob (some "https://example.com") "raw" false
    (some "https://backend") (some "key") [] "job-9" 0 (.ok (some "bk-9"))).2.jobs

/-- Claim C2, evaluated at the failing input: after a real submit and one
poll in which the backend reports `done` but the result fetch answers
non-2xx, the stored record has `status = done` with `result = null`,
violating the invariant `done ⇒ result ≠ null`. -/
theorem done_result_invariant_violated :
    (∃ j, getJobById storeAfterSubmit "job-9" = some j
        ∧ j.status = "pending" ∧ j.result = none)
    ∧ (∃ j', getJobById (pollJobStatus storeAfterSubmit "job-9" 0 1
          (.ok { status := "done" }) .httpError).jobs "job-9" = some j'
        ∧ j'.status = "done" ∧ j'.result = none ∧ j'.error = none) := by
  refine ⟨⟨{ id := "job-9",
             backendJobId := some "bk-9",
             url := some "https://example.com", payload := "raw",
             status := "pending", createdAt := 0, updatedAt := 0,
             retries := 0, error := none, result := none }, rfl, rfl, rfl⟩,
    ⟨{ id := "job-9",
       backendJobId := some "bk-9",
       url := some "https://example.com", payload := "raw",
       status := "done", createdAt := 0, updatedAt := 1,
       retries := 0, error := none, result := none }, rfl, rfl, rfl, rfl⟩⟩

/-- The store after the sample running job is cancelled at time 1, while a
poll that had already read its snapshot is suspended on the network. -/
def cancelledStore : List Job := (cancelJob [sampleRunning] "job-1" 1).1

/-- The outcome of that suspended poll resuming at time 2 with a `running`
status response, applied — as the code does — to the post-cancellation store
using the pre-cancellation snapshot. -/
def stalePollOutcome : PollOutcome :=
  pollResume cancelledStore sampleRunning 0 2
    (.ok { status := "running", progress := some 80 }) .throwErr

/-- Claim C9, evaluated at the failing interleaving: a poll snapshots the
running job, the user cancels (the store then holds the terminal `error`
record), and when the in-flight status response arrives the poll overwrites
the terminal record back to `running` with no error and reschedules — the
response is not discarded and the job is resurrected. -/
theorem stale_poll_resurrects_cancelled_job :
    pollSnapshot [sampleRunning] "job-1" = some sampleRunning
    ∧ (∃ jc, getJobById cancelledStore "job-1" = some jc
        ∧ jc.status = "error" ∧ jc.error = some "Cancelled by user")
    ∧ (∃ j', getJobById stalePollOutcome.jobs "job-1" = some j'
        ∧ j'.status = "running" ∧ j'.error = none)
    ∧ stalePollOutcome.action = .reschedule (pollDelaySuccess 0) := by
  refine ⟨rfl,
    ⟨{ sampleRunning with
        status := "error", error := some "Cancelled by user",
        updatedAt := 1 }, rfl, rfl, rfl⟩,
    ⟨{ sampleRunning with
        status := "running", progress := some 80, updatedAt := 2 },
      rfl, rfl, rfl⟩, rfl⟩

end LcaServiceWorker
